import Mathlib

/-!
Verification development for the Chalet Josephine contact-form worker.

The repository ships two near-identical Cloudflare Worker variants of the
same enquiry handler:

* `src/workers/contact-form.js` — delivers mail through MailChannels and
  needs no credential (modelled below as `handlerMC`);
* `src/unnamed/part_000` — delivers mail through Resend and requires the
  `RESEND_API_KEY` credential (modelled below as `handlerResend`).

The embedding is a direct transcription of the handlers' control flow.
JavaScript strings become `String`, the parsed JSON body becomes an
association list of scalar `JValue`s, the two awaited provider calls become
two boolean oracle parameters (the `ok` flag of each provider response),
and each invocation yields a `HandlerResult`: either a `Response` together
with the ordered list of recipients of the outbound sends that were
attempted, or the propagation of an uncaught exception (the `TypeError`
that `data[field]?.trim()` raises on a non-string, non-nullish value).
Rendering of the two HTML mail bodies has no bearing on any claim and is
not modelled beyond the fact that each send happens.
-/

/-- JSON values that can appear as a field of the parsed request body.
Objects and arrays are omitted: the handler only ever calls `trim` on a
field, and every non-string, non-nullish value behaves exactly like `num`
or `bool` does here (its `trim` property is `undefined`, so invoking it
throws a `TypeError`). -/
inductive JValue where
  | str (s : String)
  | num (n : Int)
  | bool (b : Bool)
  | null
deriving DecidableEq

/-- Worker environment bindings. `none` models an unset variable. -/
structure Env where
  TO_EMAIL : Option String
  RESEND_API_KEY : Option String
deriving DecidableEq

/-- Inbound HTTP request: method, the value of the Origin header (`none`
when absent), and the parsed JSON body, where `body = none` models a body
on which `request.json()` throws. -/
structure Request where
  method : String
  origin : Option String
  body : Option (List (String × JValue))
deriving DecidableEq

/-- The JSON response bodies the handler serialises: an error object or
the success object. -/
inductive JsonBody where
  | errObj (error : String)
  | successObj (success : Bool) (message : String)
deriving DecidableEq

/-- Client-visible HTTP response: status, optional JSON body (`none` is
the `null` body of the preflight response), and headers in order. -/
structure Response where
  status : Nat
  body : Option JsonBody
  headers : List (String × String)
deriving DecidableEq

/-- Result of one invocation of a fetch handler: a response plus the
ordered recipient addresses of the outbound provider calls that were
attempted, or an uncaught exception with the sends attempted before it. -/
inductive HandlerResult where
  | ok (response : Response) (sends : List String)
  | thrown (sends : List String)
deriving DecidableEq

def ALLOWED_ORIGIN : String := "https://www.chalet-josephine.com"

/-- Models JavaScript `String.prototype.endsWith` on whole strings. -/
def strEndsWith (s p : String) : Bool := p.data.isSuffixOf s.data

/-- Transcribes `corsHeaders(request)` (identical in both variants). -/
def corsHeaders (request : Request) : List (String × String) :=
  let origin := request.origin.getD ""
  let allowed := origin == ALLOWED_ORIGIN || strEndsWith origin ".chalet-josephine.com"
  [ ("Access-Control-Allow-Origin", if allowed then origin else ALLOWED_ORIGIN),
    ("Access-Control-Allow-Methods", "POST, OPTIONS"),
    ("Access-Control-Allow-Headers", "Content-Type") ]

/-- Transcribes `jsonResponse(body, status, request)` (identical in both
variants): serialise the body and prepend Content-Type to the CORS
headers. -/
def jsonResponse (body : JsonBody) (status : Nat) (request : Request) : Response :=
  { status := status
    body := some body
    headers := ("Content-Type", "application/json") :: corsHeaders request }

/-- Models JavaScript `String.prototype.trim`: strip leading and trailing
whitespace. -/
def jsTrim (s : String) : String :=
  String.mk (((s.data.dropWhile Char.isWhitespace).reverse.dropWhile Char.isWhitespace).reverse)

/-- Outcome of the required-field loop. -/
inductive FieldCheck where
  | allPresent
  | missingField (field : String)
  | trimTypeError (field : String)
deriving DecidableEq

/-- The `required` array, in source order. -/
def requiredFields : List String :=
  ["first_name", "last_name", "email", "arrival_date", "departure_date", "guests"]

/-- Mirrors the loop `for (const field of required)` with its test
`!data[field]?.trim()`: an absent or null field short-circuits to
`undefined`, which is falsy (missing-field return); a string is trimmed
and a blank result is falsy (missing-field return); a non-blank string
passes; any other value throws a `TypeError` because its `trim` property
is `undefined`. -/
def checkRequired (data : List (String × JValue)) : List String → FieldCheck
  | [] => .allPresent
  | f :: rest =>
    match data.lookup f with
    | none => .missingField f
    | some .null => .missingField f
    | some (.str s) => if jsTrim s = "" then .missingField f else checkRequired data rest
    | some (.num _) => .trimTypeError f
    | some (.bool _) => .trimTypeError f

/-- The whole required-field validation pass. -/
def validateRequired (data : List (String × JValue)) : FieldCheck :=
  checkRequired data requiredFields

/-- Reads a field value as the string it holds. On every path where the
handler reads `data.email` this way, the required-field check has already
returned `allPresent`, which forces the value to be a string; the default
arm is unreachable there. -/
def strVal : Option JValue → String
  | some (.str s) => s
  | _ => ""

/-- The character class of the email regex: any character that is neither
whitespace nor an at sign. -/
def atomChar (c : Char) : Bool := !c.isWhitespace && !(c == '@')

/-- Splits a list at the first occurrence of `c`, returning the part
before it and the part after it. -/
def splitAtFirst (c : Char) : List Char → Option (List Char × List Char)
  | [] => none
  | x :: xs =>
    if x = c then some ([], xs)
    else (splitAtFirst c xs).map (fun p => (x :: p.1, p.2))

/-- True when the list holds a period somewhere before its last element. -/
def dotBeforeLast : List Char → Bool
  | [] => false
  | [_] => false
  | c :: y :: rest => (c == '.') || dotBeforeLast (y :: rest)

/-- True when the list splits as `d ++ period :: t` with `d` and `t`
nonempty. -/
def midDotSplit : List Char → Bool
  | [] => false
  | _ :: xs => dotBeforeLast xs

/-- Decides the test of the email regex (anchored, with local part, domain
part and TLD part all drawn from `atomChar`): the string must split at a
unique at sign into a nonempty local part and a remainder that itself
splits around an interior period, all characters being `atomChar`. -/
def emailRegexMatch (s : String) : Bool :=
  match splitAtFirst '@' s.data with
  | none => false
  | some (l, rest) => !l.isEmpty && l.all atomChar && rest.all atomChar && midDotSplit rest

/-- Mirrors `env.TO_EMAIL || 'info@chalet-josephine.com'`: an unset or
empty variable is falsy and falls back to the default recipient. -/
def resolveToEmail (env : Env) : String :=
  match env.TO_EMAIL with
  | none => "info@chalet-josephine.com"
  | some s => if s = "" then "info@chalet-josephine.com" else s

/-- JavaScript truthiness of the optional `RESEND_API_KEY` string. -/
def truthyKey : Option String → Bool
  | none => false
  | some s => !(s == "")

/-- Fetch handler of the MailChannels variant (`src/workers/contact-form.js`).
`p1` and `p2` are the `ok` flags of the provider responses to the first
(operator-notification) and second (guest-confirmation) send; the handler
never reads `p2`, exactly as the source ignores the confirmation send's
result. The trace records the recipient of each attempted send in order. -/
def handlerMC (request : Request) (env : Env) (p1 _p2 : Bool) : HandlerResult :=
  if request.method = "OPTIONS" then
    .ok { status := 200, body := none, headers := corsHeaders request } []
  else if request.method ≠ "POST" then
    .ok (jsonResponse (.errObj "Method not allowed") 405 request) []
  else
    match request.body with
    | none => .ok (jsonResponse (.errObj "Invalid request body") 400 request) []
    | some data =>
      match validateRequired data with
      | .missingField f =>
          .ok (jsonResponse (.errObj ("Missing required field: " ++ f)) 400 request) []
      | .trimTypeError _ => .thrown []
      | .allPresent =>
        if !emailRegexMatch (strVal (data.lookup "email")) then
          .ok (jsonResponse (.errObj "Invalid email address") 400 request) []
        else
          let toEmail := resolveToEmail env
          if !p1 then
            .ok (jsonResponse
              (.errObj "Failed to send enquiry. Please try again or contact us directly.")
              500 request) [toEmail]
          else
            .ok (jsonResponse
              (.successObj true "Enquiry received. We will respond within 24 hours.")
              200 request) [toEmail, strVal (data.lookup "email")]

/-- Fetch handler of the Resend variant (`src/unnamed/part_000`). Identical
to `handlerMC` up to and including email validation; it then requires a
truthy `RESEND_API_KEY` before attempting any send. -/
def handlerResend (request : Request) (env : Env) (p1 _p2 : Bool) : HandlerResult :=
  if request.method = "OPTIONS" then
    .ok { status := 200, body := none, headers := corsHeaders request } []
  else if request.method ≠ "POST" then
    .ok (jsonResponse (.errObj "Method not allowed") 405 request) []
  else
    match request.body with
    | none => .ok (jsonResponse (.errObj "Invalid request body") 400 request) []
    | some data =>
      match validateRequired data with
      | .missingField f =>
          .ok (jsonResponse (.errObj ("Missing required field: " ++ f)) 400 request) []
      | .trimTypeError _ => .thrown []
      | .allPresent =>
        if !emailRegexMatch (strVal (data.lookup "email")) then
          .ok (jsonResponse (.errObj "Invalid email address") 400 request) []
        else if !truthyKey env.RESEND_API_KEY then
          .ok (jsonResponse (.errObj "Email service not configured") 500 request) []
        else
          let toEmail := resolveToEmail env
          if !p1 then
            .ok (jsonResponse
              (.errObj "Failed to send enquiry. Please try again or contact us directly.")
              500 request) [toEmail]
          else
            .ok (jsonResponse
              (.successObj true "Enquiry received. We will respond within 24 hours.")
              200 request) [toEmail, strVal (data.lookup "email")]

/-- Extracts the Access-Control-Allow-Origin header of a produced
response, when one was produced. -/
def acaoOf : HandlerResult → Option String
  | .ok r _ => r.headers.lookup "Access-Control-Allow-Origin"
  | .thrown _ => none

/-- Spec predicate, following the claim words: the Origin is the canonical
site or a direct subdomain of it. Read generously, a direct subdomain is an
https origin whose host adds exactly one nonempty label in front of
chalet-josephine.com. -/
def specCanonicalOrDirectSub (o : String) : Prop :=
  o = ALLOWED_ORIGIN ∨
    ∃ label : String, label ≠ "" ∧ (∀ c ∈ label.data, c ≠ '.') ∧
      o = "https://" ++ label ++ ".chalet-josephine.com"

/-- Spec predicate, following the claim words for the email shape:
non-whitespace local part, at sign, non-whitespace domain part, period,
non-whitespace TLD part, each part nonempty. -/
def specEmailShape (s : String) : Prop :=
  ∃ l d t : List Char,
    l ≠ [] ∧ d ≠ [] ∧ t ≠ [] ∧
    (∀ c ∈ l, ¬ c.isWhitespace) ∧ (∀ c ∈ d, ¬ c.isWhitespace) ∧
    (∀ c ∈ t, ¬ c.isWhitespace) ∧
    s.data = l ++ '@' :: (d ++ '.' :: t)

/-- Amended email shape: each part is nonempty and free of both
whitespace and at signs. -/
def specEmailShapeNoAt (s : String) : Prop :=
  ∃ l d t : List Char,
    l ≠ [] ∧ d ≠ [] ∧ t ≠ [] ∧
    (∀ c ∈ l, ¬ c.isWhitespace ∧ c ≠ '@') ∧ (∀ c ∈ d, ¬ c.isWhitespace ∧ c ≠ '@') ∧
    (∀ c ∈ t, ¬ c.isWhitespace ∧ c ≠ '@') ∧
    s.data = l ++ '@' :: (d ++ '.' :: t)

/-- Claim-side notion of a missing or blank-after-trimming field value. -/
def fieldBlank : Option JValue → Bool
  | none => true
  | some (.str s) => jsTrim s == ""
  | some _ => false

/-- A field value conforming to the data model: absent or a string. -/
def textualField : Option JValue → Bool
  | none => true
  | some (.str _) => true
  | some _ => false

/-! ### Concrete inputs used by witnesses and counterexamples -/

/-- Environment with no bindings set. -/
def envNone : Env := { TO_EMAIL := none, RESEND_API_KEY := none }

/-- Environment with a configured Resend API key. -/
def envKeyed : Env := { TO_EMAIL := none, RESEND_API_KEY := some "rk" }

/-- A fully valid enquiry body. -/
def dataValid : List (String × JValue) :=
  [("first_name", .str "Ann"), ("last_name", .str "Lee"), ("email", .str "a@b.c"),
   ("arrival_date", .str "2026-01-01"), ("departure_date", .str "2026-01-08"),
   ("guests", .str "4")]

/-- A POST request carrying the valid body. -/
def reqValid : Request := { method := "POST", origin := none, body := some dataValid }

/-- A body with only the first required field present. -/
def dataOneField : List (String × JValue) := [("first_name", .str "Ann")]

/-- A POST request carrying only the first required field. -/
def reqOneField : Request := { method := "POST", origin := none, body := some dataOneField }

/-- A body with all six fields present but guests holding a JSON number. -/
def dataGuestsNum : List (String × JValue) :=
  [("first_name", .str "Ann"), ("last_name", .str "Lee"), ("email", .str "a@b.c"),
   ("arrival_date", .str "2026-01-01"), ("departure_date", .str "2026-01-08"),
   ("guests", .num 4)]

/-- A POST request carrying that body. -/
def reqGuestsNum : Request := { method := "POST", origin := none, body := some dataGuestsNum }

/-- A body whose email lacks any at sign. -/
def dataBadEmail : List (String × JValue) :=
  [("first_name", .str "Ann"), ("last_name", .str "Lee"), ("email", .str "ab.cd"),
   ("arrival_date", .str "2026-01-01"), ("departure_date", .str "2026-01-08"),
   ("guests", .str "4")]

/-- A POST request carrying the bad-email body. -/
def reqBadEmail : Request := { method := "POST", origin := none, body := some dataBadEmail }

/-- A body whose email "a@b@c.d" holds two at signs. -/
def dataTwoAt : List (String × JValue) :=
  [("first_name", .str "Ann"), ("last_name", .str "Lee"), ("email", .str "a@b@c.d"),
   ("arrival_date", .str "2026-01-01"), ("departure_date", .str "2026-01-08"),
   ("guests", .str "4")]

/-- A POST request carrying the two-at-signs body. -/
def reqTwoAt : Request := { method := "POST", origin := none, body := some dataTwoAt }

/-! ### Lemmas about the embedding -/

theorem atomChar_iff (c : Char) : atomChar c = true ↔ ¬ c.isWhitespace ∧ c ≠ '@' := by
  simp [atomChar]

theorem splitAtFirst_cons (c x : Char) (xs : List Char) :
    splitAtFirst c (x :: xs) =
      if x = c then some ([], xs)
      else (splitAtFirst c xs).map (fun p => (x :: p.1, p.2)) := rfl

theorem splitAtFirst_eq_some (c : Char) :
    ∀ (s l r : List Char), splitAtFirst c s = some (l, r) →
      s = l ++ c :: r ∧ ∀ x ∈ l, x ≠ c := by
  intro s
  induction s with
  | nil => intro l r h; simp [splitAtFirst] at h
  | cons x xs ih =>
    intro l r h
    rw [splitAtFirst_cons] at h
    by_cases hx : x = c
    · rw [if_pos hx] at h
      injection h with h'
      injection h' with hl hr
      subst hl; subst hr
      simp [hx]
    · rw [if_neg hx] at h
      cases hsm : splitAtFirst c xs with
      | none => rw [hsm] at h; simp at h
      | some p =>
        obtain ⟨l2, r2⟩ := p
        rw [hsm] at h
        simp only [Option.map_some'] at h
        injection h with h'
        injection h' with hl hr
        subst hl; subst hr
        obtain ⟨heq, hmem⟩ := ih l2 r2 hsm
        constructor
        · simp [heq]
        · intro y hy
          rcases List.mem_cons.mp hy with hy1 | hy2
          · subst hy1; exact hx
          · exact hmem y hy2

theorem splitAtFirst_of_append (c : Char) :
    ∀ (l r : List Char), (∀ x ∈ l, x ≠ c) → splitAtFirst c (l ++ c :: r) = some (l, r) := by
  intro l
  induction l with
  | nil => intro r _; simp [splitAtFirst]
  | cons x xs ih =>
    intro r h
    have hx : x ≠ c := h x (List.mem_cons_self x xs)
    have hrec := ih r (fun y hy => h y (List.mem_cons_of_mem x hy))
    simp [splitAtFirst, hx, hrec]

theorem dotBeforeLast_append : ∀ (a b : List Char), b ≠ [] →
    dotBeforeLast (a ++ '.' :: b) = true := by
  intro a
  induction a with
  | nil =>
    intro b hb
    cases b with
    | nil => exact absurd rfl hb
    | cons y ys => simp [dotBeforeLast]
  | cons x xs ih =>
    intro b hb
    have h2 := ih b hb
    cases hxs : xs ++ '.' :: b with
    | nil => simp at hxs
    | cons y ys =>
      rw [hxs] at h2
      calc dotBeforeLast (x :: xs ++ '.' :: b)
          = dotBeforeLast (x :: y :: ys) := by rw [List.cons_append, hxs]
        _ = ((x == '.') || dotBeforeLast (y :: ys)) := rfl
        _ = true := by rw [h2, Bool.or_true]

theorem dotBeforeLast_exists : ∀ (xs : List Char), dotBeforeLast xs = true →
    ∃ a b, xs = a ++ '.' :: b ∧ b ≠ [] := by
  intro xs
  induction xs with
  | nil => intro h; simp [dotBeforeLast] at h
  | cons x ys ih =>
    intro h
    cases ys with
    | nil => simp [dotBeforeLast] at h
    | cons y rest =>
      have h' : ((x == '.') || dotBeforeLast (y :: rest)) = true := h
      rcases (by simpa using h' : x = '.' ∨ dotBeforeLast (y :: rest) = true) with hx' | hrec
      · subst hx'
        exact ⟨[], y :: rest, rfl, by simp⟩
      · obtain ⟨a, b, heq, hb⟩ := ih hrec
        exact ⟨x :: a, b, by simp [heq], hb⟩

theorem emailRegexMatch_iff (s : String) :
    emailRegexMatch s = true ↔ specEmailShapeNoAt s := by
  constructor
  · intro h
    unfold emailRegexMatch at h
    cases hsplit : splitAtFirst '@' s.data with
    | none => rw [hsplit] at h; exact absurd h (by simp)
    | some p =>
      obtain ⟨l, rest⟩ := p
      rw [hsplit] at h
      simp only [Bool.and_eq_true] at h
      obtain ⟨⟨⟨hl0, hlatom⟩, hratom⟩, hmid⟩ := h
      obtain ⟨hs, -⟩ := splitAtFirst_eq_some '@' s.data l rest hsplit
      cases rest with
      | nil => simp [midDotSplit] at hmid
      | cons x xs =>
        have hdot : dotBeforeLast xs = true := hmid
        obtain ⟨a, b, hxs, hb⟩ := dotBeforeLast_exists xs hdot
        have hallrest : ∀ c ∈ x :: xs, atomChar c = true := by
          simpa [List.all_eq_true] using hratom
        have hrest_shape : x :: xs = (x :: a) ++ '.' :: b := by simp [hxs]
        refine ⟨l, x :: a, b, ?_, by simp, hb, ?_, ?_, ?_, ?_⟩
        · intro hl; rw [hl] at hl0; simp at hl0
        · intro c hc
          exact (atomChar_iff c).mp (List.all_eq_true.mp hlatom c hc)
        · intro c hc
          refine (atomChar_iff c).mp (hallrest c ?_)
          rw [hrest_shape]
          exact List.mem_append_left _ hc
        · intro c hc
          refine (atomChar_iff c).mp (hallrest c ?_)
          rw [hrest_shape]
          exact List.mem_append_right _ (List.mem_cons_of_mem '.' hc)
        · rw [hs, hxs]
          simp
  · rintro ⟨l, d, t, hl, hd, ht, hcl, hcd, hct, hs⟩
    have hlne : ∀ x ∈ l, x ≠ '@' := fun x hx => (hcl x hx).2
    unfold emailRegexMatch
    rw [hs, splitAtFirst_of_append '@' l (d ++ '.' :: t) hlne]
    simp only [Bool.and_eq_true]
    refine ⟨⟨⟨?_, ?_⟩, ?_⟩, ?_⟩
    · simp [hl]
    · exact List.all_eq_true.mpr (fun c hc => (atomChar_iff c).mpr (hcl c hc))
    · refine List.all_eq_true.mpr (fun c hc => (atomChar_iff c).mpr ?_)
      rcases List.mem_append.mp hc with hc1 | hc2
      · exact hcd c hc1
      · rcases List.mem_cons.mp hc2 with hc3 | hc4
        · subst hc3; exact ⟨by decide, by decide⟩
        · exact hct c hc4
    · cases d with
      | nil => exact absurd rfl hd
      | cons x d2 =>
        have : midDotSplit (x :: (d2 ++ '.' :: t)) = dotBeforeLast (d2 ++ '.' :: t) := rfl
        rw [List.cons_append, this]
        exact dotBeforeLast_append d2 t ht

theorem checkRequired_of_find (data : List (String × JValue)) :
    ∀ (fs : List String) (f : String),
      (∀ g ∈ fs, textualField (data.lookup g) = true) →
      fs.find? (fun g => fieldBlank (data.lookup g)) = some f →
      checkRequired data fs = .missingField f := by
  intro fs
  induction fs with
  | nil => intro f _ hf; simp at hf
  | cons g rest ih =>
    intro f htext hf
    have hg := htext g (List.mem_cons_self g rest)
    by_cases hb : fieldBlank (data.lookup g) = true
    · rw [show (g :: rest).find? (fun g => fieldBlank (data.lookup g)) = some g from
        List.find?_cons_of_pos _ hb] at hf
      injection hf with hf'
      subst hf'
      cases hlook : data.lookup g with
      | none => simp [checkRequired, hlook]
      | some v =>
        cases v with
        | str s =>
          rw [hlook] at hb
          have hbs : jsTrim s = "" := by simpa [fieldBlank] using hb
          simp [checkRequired, hlook, hbs]
        | num n => rw [hlook] at hg; simp [textualField] at hg
        | bool b => rw [hlook] at hg; simp [textualField] at hg
        | null => rw [hlook] at hb; simp [fieldBlank] at hb
    · rw [show (g :: rest).find? (fun g => fieldBlank (data.lookup g)) =
            rest.find? (fun g => fieldBlank (data.lookup g)) from
        List.find?_cons_of_neg _ hb] at hf
      have hrec := ih f (fun y hy => htext y (List.mem_cons_of_mem g hy)) hf
      cases hlook : data.lookup g with
      | none => rw [hlook] at hb; simp [fieldBlank] at hb
      | some v =>
        cases v with
        | str s =>
          rw [hlook] at hb
          have hbs : ¬ jsTrim s = "" := by simpa [fieldBlank] using hb
          simp [checkRequired, hlook, hbs, hrec]
        | num n => rw [hlook] at hg; simp [textualField] at hg
        | bool b => rw [hlook] at hg; simp [textualField] at hg
        | null => rw [hlook] at hg; simp [textualField] at hg

theorem handlerMC_ok_headers (request : Request) (env : Env) (p1 p2 : Bool)
    (r : Response) (sends : List String)
    (h : handlerMC request env p1 p2 = .ok r sends) :
    r.headers = corsHeaders request ∨
      r.headers = ("Content-Type", "application/json") :: corsHeaders request := by
  simp only [handlerMC, jsonResponse] at h
  repeat' split at h
  all_goals cases h
  all_goals first
    | exact Or.inl rfl
    | exact Or.inr rfl

theorem handlerResend_ok_headers (request : Request) (env : Env) (p1 p2 : Bool)
    (r : Response) (sends : List String)
    (h : handlerResend request env p1 p2 = .ok r sends) :
    r.headers = corsHeaders request ∨
      r.headers = ("Content-Type", "application/json") :: corsHeaders request := by
  simp only [handlerResend, jsonResponse] at h
  repeat' split at h
  all_goals cases h
  all_goals first
    | exact Or.inl rfl
    | exact Or.inr rfl

theorem corsHeaders_lookup_acao (request : Request) :
    (corsHeaders request).lookup "Access-Control-Allow-Origin" =
      some (if request.origin.getD "" == ALLOWED_ORIGIN
              || strEndsWith (request.origin.getD "") ".chalet-josephine.com"
            then request.origin.getD "" else ALLOWED_ORIGIN) := by
  simp [corsHeaders, List.lookup]

theorem contentType_cons_lookup_acao (request : Request) :
    ((("Content-Type", "application/json") :: corsHeaders request).lookup
        "Access-Control-Allow-Origin") =
      (corsHeaders request).lookup "Access-Control-Allow-Origin" := by
  have hne : (("Access-Control-Allow-Origin" : String) == "Content-Type") = false := by decide
  simp [List.lookup, hne]

/-! ### Claim C1 -/

/-- Claim C1: for every POST request whose parsed JSON body conforms to the
data model (each required field absent or a string) and is missing, or
blank after trimming, some required field, both handler variants return
HTTP 400 with JSON body error "Missing required field: f", where f is the
first failing field in the fixed order first_name, last_name, email,
arrival_date, departure_date, guests, no later field is reported, and no
send is attempted. -/
theorem claim_C1_first_missing_field
    (request : Request) (env : Env) (p1 p2 : Bool)
    (data : List (String × JValue)) (f : String)
    (hm : request.method = "POST") (hb : request.body = some data)
    (htext : ∀ g ∈ requiredFields, textualField (data.lookup g) = true)
    (hf : requiredFields.find? (fun g => fieldBlank (data.lookup g)) = some f) :
    handlerMC request env p1 p2 =
      .ok (jsonResponse (.errObj ("Missing required field: " ++ f)) 400 request) [] ∧
    handlerResend request env p1 p2 =
      .ok (jsonResponse (.errObj ("Missing required field: " ++ f)) 400 request) [] := by
  have hval : validateRequired data = .missingField f :=
    checkRequired_of_find data requiredFields f htext hf
  constructor
  · simp [handlerMC, hm, hb, hval]
  · simp [handlerResend, hm, hb, hval]

/-- Witness for claim C1: a body holding only first_name is reported as
missing last_name, the first failing field in order. -/
theorem claim_C1_witness :
    handlerMC reqOneField envNone true true =
      .ok (jsonResponse (.errObj "Missing required field: last_name") 400 reqOneField) [] :=
  (claim_C1_first_missing_field reqOneField envNone true true dataOneField "last_name"
    rfl rfl (by decide) (by decide)).1

/-! ### Claim C2 -/

/-- Claim C2 counterexample: with the Origin header "x.chalet-josephine.com"
— a value that is neither the canonical site nor a direct subdomain origin
of it (it lacks any scheme) — the handler echoes the Origin back instead of
answering with the canonical site, so the claim as stated fails. -/
theorem claim_C2_counterexample :
    acaoOf (handlerMC
        { method := "OPTIONS", origin := some "x.chalet-josephine.com", body := none }
        envNone true true) = some "x.chalet-josephine.com" ∧
    "x.chalet-josephine.com" ≠ ALLOWED_ORIGIN ∧
    ¬ specCanonicalOrDirectSub "x.chalet-josephine.com" := by
  refine ⟨by decide, by decide, ?_⟩
  rintro (h | ⟨label, hne, hdot, heq⟩)
  · exact absurd h (by decide)
  · have hlen := congrArg String.length heq
    rw [String.length_append, String.length_append] at hlen
    have h1 : ("x.chalet-josephine.com" : String).length = 22 := by decide
    have h2 : ("https://" : String).length = 8 := by decide
    have h3 : (".chalet-josephine.com" : String).length = 21 := by decide
    rw [h1, h2, h3] at hlen
    omega

/-- Claim C2 (amended): on every response path of both variants, the
Access-Control-Allow-Origin header equals the request's Origin exactly when
that Origin equals the canonical site or merely ends with the string
".chalet-josephine.com" (a plain suffix check, with no constraint on
scheme or nesting depth), and equals the canonical site otherwise. -/
theorem claim_C2_acao_suffix_rule
    (request : Request) (env : Env) (p1 p2 : Bool) (r : Response) (sends : List String)
    (h : handlerMC request env p1 p2 = .ok r sends ∨
         handlerResend request env p1 p2 = .ok r sends) :
    r.headers.lookup "Access-Control-Allow-Origin" =
      some (if request.origin.getD "" == ALLOWED_ORIGIN
              || strEndsWith (request.origin.getD "") ".chalet-josephine.com"
            then request.origin.getD "" else ALLOWED_ORIGIN) := by
  have hh : r.headers = corsHeaders request ∨
      r.headers = ("Content-Type", "application/json") :: corsHeaders request := by
    rcases h with h | h
    · exact handlerMC_ok_headers request env p1 p2 r sends h
    · exact handlerResend_ok_headers request env p1 p2 r sends h
  rcases hh with hh | hh <;> rw [hh]
  · exact corsHeaders_lookup_acao request
  · rw [contentType_cons_lookup_acao]; exact corsHeaders_lookup_acao request

/-- Witness for the amended claim C2: a preflight request without an Origin
header is answered with the canonical site. -/
theorem claim_C2_witness :
    (Response.mk 200 none
        (corsHeaders { method := "OPTIONS", origin := none, body := none })).headers.lookup
      "Access-Control-Allow-Origin" = some ALLOWED_ORIGIN :=
  claim_C2_acao_suffix_rule { method := "OPTIONS", origin := none, body := none }
    envNone true true
    (Response.mk 200 none (corsHeaders { method := "OPTIONS", origin := none, body := none }))
    [] (Or.inl (by decide))

/-! ### Claim C3 -/

/-- Claim C3: for every fully valid POST payload, when the first
(operator-notification) send gets a non-2xx provider response, both
variants return HTTP 500 with the generic delivery-failure message and the
send trace holds exactly the one operator send — the guest-confirmation
send is never attempted. For the Resend variant this is the behaviour on
the path where the API key is configured, the only path on which it sends
at all. -/
theorem claim_C3_first_send_failure_aborts
    (request : Request) (env : Env) (p2 : Bool) (data : List (String × JValue))
    (hm : request.method = "POST") (hb : request.body = some data)
    (hv : validateRequired data = .allPresent)
    (he : emailRegexMatch (strVal (data.lookup "email")) = true) :
    handlerMC request env false p2 =
      .ok (jsonResponse
        (.errObj "Failed to send enquiry. Please try again or contact us directly.")
        500 request) [resolveToEmail env] ∧
    (truthyKey env.RESEND_API_KEY = true →
      handlerResend request env false p2 =
        .ok (jsonResponse
          (.errObj "Failed to send enquiry. Please try again or contact us directly.")
          500 request) [resolveToEmail env]) := by
  constructor
  · simp [handlerMC, hm, hb, hv, he]
  · intro hk; simp [handlerResend, hm, hb, hv, he, hk]

/-- Witness for claim C3 on the valid payload: a failed first send yields
the 500 delivery-failure response with a single attempted send. -/
theorem claim_C3_witness :
    handlerMC reqValid envNone false true =
      .ok (jsonResponse
        (.errObj "Failed to send enquiry. Please try again or contact us directly.")
        500 reqValid) ["info@chalet-josephine.com"] ∧
    handlerResend reqValid envKeyed false true =
      .ok (jsonResponse
        (.errObj "Failed to send enquiry. Please try again or contact us directly.")
        500 reqValid) ["info@chalet-josephine.com"] :=
  ⟨(claim_C3_first_send_failure_aborts reqValid envNone true dataValid
      rfl rfl (by decide) (by decide)).1,
   (claim_C3_first_send_failure_aborts reqValid envKeyed true dataValid
      rfl rfl (by decide) (by decide)).2 (by decide)⟩

/-! ### Claim C5 -/

/-- Claim C5: for every fully valid POST payload whose first send succeeds,
both variants return HTTP 200 with the success body for every outcome p2
of the second (confirmation) send — the handler never reads the
confirmation send's result, so its failure is never surfaced. Both sends
appear in the trace: the second is attempted, then ignored. -/
theorem claim_C5_confirmation_failure_ignored
    (request : Request) (env : Env) (p2 : Bool) (data : List (String × JValue))
    (hm : request.method = "POST") (hb : request.body = some data)
    (hv : validateRequired data = .allPresent)
    (he : emailRegexMatch (strVal (data.lookup "email")) = true) :
    handlerMC request env true p2 =
      .ok (jsonResponse
        (.successObj true "Enquiry received. We will respond within 24 hours.")
        200 request) [resolveToEmail env, strVal (data.lookup "email")] ∧
    (truthyKey env.RESEND_API_KEY = true →
      handlerResend request env true p2 =
        .ok (jsonResponse
          (.successObj true "Enquiry received. We will respond within 24 hours.")
          200 request) [resolveToEmail env, strVal (data.lookup "email")]) := by
  constructor
  · simp [handlerMC, hm, hb, hv, he]
  · intro hk; simp [handlerResend, hm, hb, hv, he, hk]

/-- Witness for claim C5: with a failing confirmation send (p2 false) the
response is still the 200 success response in both variants. -/
theorem claim_C5_witness :
    handlerMC reqValid envNone true false =
      .ok (jsonResponse
        (.successObj true "Enquiry received. We will respond within 24 hours.")
        200 reqValid) ["info@chalet-josephine.com", "a@b.c"] ∧
    handlerResend reqValid envKeyed true false =
      .ok (jsonResponse
        (.successObj true "Enquiry received. We will respond within 24 hours.")
        200 reqValid) ["info@chalet-josephine.com", "a@b.c"] :=
  ⟨(claim_C5_confirmation_failure_ignored reqValid envNone false dataValid
      rfl rfl (by decide) (by decide)).1,
   (claim_C5_confirmation_failure_ignored reqValid envKeyed false dataValid
      rfl rfl (by decide) (by decide)).2 (by decide)⟩

/-! ### Claim C6 -/

/-- Claim C6: for every fully valid POST payload with a provider that
accepts both sends (and, in the Resend variant, a configured API key),
the response is exactly HTTP 200 with JSON body success true and message
"Enquiry received. We will respond within 24 hours.". -/
theorem claim_C6_success_response
    (request : Request) (env : Env) (data : List (String × JValue))
    (hm : request.method = "POST") (hb : request.body = some data)
    (hv : validateRequired data = .allPresent)
    (he : emailRegexMatch (strVal (data.lookup "email")) = true) :
    handlerMC request env true true =
      .ok (jsonResponse
        (.successObj true "Enquiry received. We will respond within 24 hours.")
        200 request) [resolveToEmail env, strVal (data.lookup "email")] ∧
    (truthyKey env.RESEND_API_KEY = true →
      handlerResend request env true true =
        .ok (jsonResponse
          (.successObj true "Enquiry received. We will respond within 24 hours.")
          200 request) [resolveToEmail env, strVal (data.lookup "email")]) := by
  constructor
  · simp [handlerMC, hm, hb, hv, he]
  · intro hk; simp [handlerResend, hm, hb, hv, he, hk]

/-- Witness for claim C6 on the valid payload with both sends accepted. -/
theorem claim_C6_witness :
    handlerMC reqValid envNone true true =
      .ok (jsonResponse
        (.successObj true "Enquiry received. We will respond within 24 hours.")
        200 reqValid) ["info@chalet-josephine.com", "a@b.c"] ∧
    handlerResend reqValid envKeyed true true =
      .ok (jsonResponse
        (.successObj true "Enquiry received. We will respond within 24 hours.")
        200 reqValid) ["info@chalet-josephine.com", "a@b.c"] :=
  ⟨(claim_C6_success_response reqValid envNone dataValid
      rfl rfl (by decide) (by decide)).1,
   (claim_C6_success_response reqValid envKeyed dataValid
      rfl rfl (by decide) (by decide)).2 (by decide)⟩

/-! ### Claim C7 -/

/-- Claim C7: in the Resend variant, for every POST payload that passes
field and email validation, when RESEND_API_KEY is absent from the
environment the handler returns HTTP 500 with JSON body error
"Email service not configured" and the send trace is empty — no outbound
send is performed. -/
theorem claim_C7_missing_key
    (request : Request) (env : Env) (p1 p2 : Bool) (data : List (String × JValue))
    (hm : request.method = "POST") (hb : request.body = some data)
    (hv : validateRequired data = .allPresent)
    (he : emailRegexMatch (strVal (data.lookup "email")) = true)
    (hk : env.RESEND_API_KEY = none) :
    handlerResend request env p1 p2 =
      .ok (jsonResponse (.errObj "Email service not configured") 500 request) [] := by
  simp [handlerResend, hm, hb, hv, he, hk, truthyKey]

/-- Witness for claim C7 on the valid payload with no key configured. -/
theorem claim_C7_witness :
    handlerResend reqValid envNone true true =
      .ok (jsonResponse (.errObj "Email service not configured") 500 reqValid) [] :=
  claim_C7_missing_key reqValid envNone true true dataValid
    rfl rfl (by decide) (by decide) rfl

/-! ### Claim C8 -/

/-- Claim C8: for every request with method OPTIONS, both variants return
the empty-bodied status-200 response carrying exactly the CORS headers and
nothing else, with no send attempted — the body, whether absent, malformed
or arbitrary, is never parsed and no validation runs, since the result is
the same for every body. -/
theorem claim_C8_preflight
    (request : Request) (env : Env) (p1 p2 : Bool)
    (hm : request.method = "OPTIONS") :
    handlerMC request env p1 p2 =
      .ok { status := 200, body := none, headers := corsHeaders request } [] ∧
    handlerResend request env p1 p2 =
      .ok { status := 200, body := none, headers := corsHeaders request } [] := by
  constructor
  · simp [handlerMC, hm]
  · simp [handlerResend, hm]

/-- Witness for claim C8: an OPTIONS request carrying a malformed body
still gets the bare preflight response. -/
theorem claim_C8_witness :
    handlerMC { method := "OPTIONS", origin := none, body := none } envNone true true =
      .ok { status := 200, body := none,
            headers := corsHeaders { method := "OPTIONS", origin := none, body := none } } [] :=
  (claim_C8_preflight { method := "OPTIONS", origin := none, body := none }
    envNone true true rfl).1

/-! ### Claim C9 -/

/-- Claim C9: there is a POST request with well-formed JSON, all six
required fields present, but guests holding a JSON number, on which the
required-field check's call of trim throws a TypeError at that field, so
both handler variants propagate an uncaught exception and return no
response at all — neither a 400 nor any other specified response. -/
theorem claim_C9_nonstring_field_throws :
    validateRequired dataGuestsNum = .trimTypeError "guests" ∧
    handlerMC reqGuestsNum envNone true true = .thrown [] ∧
    handlerResend reqGuestsNum envKeyed true true = .thrown [] := by
  refine ⟨by decide, by decide, by decide⟩

/-! ### Claim C10 -/

/-- Claim C10: on every path that precedes any outbound provider call —
the OPTIONS preflight, the non-POST 405, the invalid JSON body, the
missing required field, and the invalid email — the MailChannels and the
Resend variant produce identical results: same status, same JSON body and
same headers (and, vacuously, the same empty send trace). -/
theorem claim_C10_variants_agree_pre_provider
    (request : Request) (env : Env) (p1 p2 : Bool) :
    (request.method = "OPTIONS" →
      handlerMC request env p1 p2 = handlerResend request env p1 p2) ∧
    (request.method ≠ "OPTIONS" → request.method ≠ "POST" →
      handlerMC request env p1 p2 = handlerResend request env p1 p2) ∧
    (request.method = "POST" → request.body = none →
      handlerMC request env p1 p2 = handlerResend request env p1 p2) ∧
    (∀ (data : List (String × JValue)) (f : String),
      request.method = "POST" → request.body = some data →
      validateRequired data = .missingField f →
      handlerMC request env p1 p2 = handlerResend request env p1 p2) ∧
    (∀ data : List (String × JValue),
      request.method = "POST" → request.body = some data →
      validateRequired data = .allPresent →
      emailRegexMatch (strVal (data.lookup "email")) = false →
      handlerMC request env p1 p2 = handlerResend request env p1 p2) := by
  refine ⟨?_, ?_, ?_, ?_, ?_⟩
  · intro hm; simp [handlerMC, handlerResend, hm]
  · intro h1 h2; simp [handlerMC, handlerResend, h1, h2]
  · intro hm hb; simp [handlerMC, handlerResend, hm, hb]
  · intro data f hm hb hv; simp [handlerMC, handlerResend, hm, hb, hv]
  · intro data hm hb hv he; simp [handlerMC, handlerResend, hm, hb, hv, he]

/-- Witness for claim C10: the agreement instantiated on one concrete
request per path: a preflight, a GET, a POST with unparseable body, a POST
missing a field, and a POST with an invalid email. -/
theorem claim_C10_witness :
    (handlerMC { method := "OPTIONS", origin := none, body := none } envNone true true =
      handlerResend { method := "OPTIONS", origin := none, body := none } envNone true true) ∧
    (handlerMC { method := "GET", origin := none, body := none } envNone true true =
      handlerResend { method := "GET", origin := none, body := none } envNone true true) ∧
    (handlerMC { method := "POST", origin := none, body := none } envNone true true =
      handlerResend { method := "POST", origin := none, body := none } envNone true true) ∧
    (handlerMC reqOneField envNone true true = handlerResend reqOneField envNone true true) ∧
    (handlerMC reqBadEmail envNone true true = handlerResend reqBadEmail envNone true true) :=
  ⟨(claim_C10_variants_agree_pre_provider
      { method := "OPTIONS", origin := none, body := none } envNone true true).1 rfl,
   (claim_C10_variants_agree_pre_provider
      { method := "GET", origin := none, body := none } envNone true true).2.1
      (by decide) (by decide),
   (claim_C10_variants_agree_pre_provider
      { method := "POST", origin := none, body := none } envNone true true).2.2.1 rfl rfl,
   (claim_C10_variants_agree_pre_provider reqOneField envNone true true).2.2.2.1
      dataOneField "last_name" rfl rfl (by decide),
   (claim_C10_variants_agree_pre_provider reqBadEmail envNone true true).2.2.2.2
      dataBadEmail rfl rfl (by decide) (by decide)⟩

/-! ### Claim C4 -/

/-- Claim C4 counterexample: the string "a@b@c.d" decomposes as
non-whitespace local part "a", at sign, non-whitespace domain part "b@c",
period, non-whitespace TLD part "d" — so it matches the shape stated in
the claim — yet on an otherwise fully valid body the handler rejects it
with HTTP 400 "Invalid email address", because the regex character
classes additionally exclude at signs from every part. -/
theorem claim_C4_counterexample :
    specEmailShape "a@b@c.d" ∧
    handlerMC reqTwoAt envNone true true =
      .ok (jsonResponse (.errObj "Invalid email address") 400 reqTwoAt) [] := by
  constructor
  · exact ⟨['a'], ['b', '@', 'c'], ['d'], by decide, by decide, by decide,
      by decide, by decide, by decide, by decide⟩
  · decide

/-- Claim C4 (amended): the email field is accepted exactly when it
decomposes as local part, at sign, domain part, period, TLD part with each
part nonempty and free of both whitespace and at signs; both variants
answer every email not of that amended shape with HTTP 400 "Invalid email
address", independent of the remaining fields being valid. -/
theorem claim_C4_email_regex_iff_shape :
    (∀ s : String, emailRegexMatch s = true ↔ specEmailShapeNoAt s) ∧
    ∀ (request : Request) (env : Env) (p1 p2 : Bool) (data : List (String × JValue)),
      request.method = "POST" → request.body = some data →
      validateRequired data = .allPresent →
      ((handlerMC request env p1 p2 =
          .ok (jsonResponse (.errObj "Invalid email address") 400 request) []) ↔
        ¬ specEmailShapeNoAt (strVal (data.lookup "email"))) ∧
      ((handlerResend request env p1 p2 =
          .ok (jsonResponse (.errObj "Invalid email address") 400 request) []) ↔
        ¬ specEmailShapeNoAt (strVal (data.lookup "email"))) := by
  refine ⟨emailRegexMatch_iff, ?_⟩
  intro request env p1 p2 data hm hb hv
  by_cases hem : emailRegexMatch (strVal (data.lookup "email")) = true
  · have hshape := (emailRegexMatch_iff _).mp hem
    constructor
    · constructor
      · intro hcontra
        cases p1 <;> simp [handlerMC, hm, hb, hv, hem, jsonResponse] at hcontra
      · intro hns; exact absurd hshape hns
    · constructor
      · intro hcontra
        cases hk : truthyKey env.RESEND_API_KEY <;> cases p1 <;>
          simp [handlerResend, hm, hb, hv, hem, hk, jsonResponse] at hcontra
      · intro hns; exact absurd hshape hns
  · have hef : emailRegexMatch (strVal (data.lookup "email")) = false := by
      revert hem; cases emailRegexMatch (strVal (data.lookup "email")) <;> simp
    have hns : ¬ specEmailShapeNoAt (strVal (data.lookup "email")) :=
      fun hs => hem ((emailRegexMatch_iff _).mpr hs)
    constructor
    · exact ⟨fun _ => hns, fun _ => by simp [handlerMC, hm, hb, hv, hef]⟩
    · exact ⟨fun _ => hns, fun _ => by simp [handlerResend, hm, hb, hv, hef]⟩

/-- Witness for the amended claim C4: "a@b.c" has the amended shape, and
an otherwise valid body whose email "ab.cd" lacks it is answered with the
invalid-email 400 response. -/
theorem claim_C4_witness :
    specEmailShapeNoAt "a@b.c" ∧
    handlerMC reqBadEmail envNone true true =
      .ok (jsonResponse (.errObj "Invalid email address") 400 reqBadEmail) [] := by
  constructor
  · exact (claim_C4_email_regex_iff_shape.1 "a@b.c").mp (by decide)
  · refine ((claim_C4_email_regex_iff_shape.2 reqBadEmail envNone true true dataBadEmail
      rfl rfl (by decide)).1).mpr ?_
    intro hs
    simp only [specEmailShapeNoAt] at hs
    obtain ⟨l, d, t, -, -, -, -, -, -, hdata⟩ := hs
    have hmem : '@' ∈ (strVal (dataBadEmail.lookup "email")).data := by
      rw [hdata]; simp
    revert hmem
    decide
